import Mathlib

/-
  Verification development for SubPDF (src/SubPDF.py).

  The Python source is shallowly embedded below.  External library calls
  (requests, BeautifulSoup, PyPDF2, the filesystem) are abstracted as explicit
  inputs: a network function mapping a URL to an optional response, the list of
  anchor hrefs of a parsed page, a record of the per-page annotation URIs and
  extracted text of a parsed PDF, and a store mapping file paths to contents.
  The string-processing parts of the source (urllib.parse.urlparse,
  os.path.basename, os.path.join, str.split, str.lower, str.startswith,
  str.endswith, the URL regular expression of extract_links_from_pdf) are
  modelled character by character, following CPython's implementation.
  Caveats, stated once here: Python's str.lower and character class "\s" act on
  full Unicode while the model lowers and classifies ASCII only (every string
  in the claims is ASCII).  urlsplit's ValueError("Invalid IPv6 URL") for a
  network location holding an unbalanced '[' or ']' — raised by every
  Python 3 — is modelled (urlsplitRaises below, surfaced as an error of the
  domain resolver, the one place the program lets it escape per extracted
  link); the further validation of a balanced-bracket host added in
  CPython 3.11 varies across versions and is not modelled, so every theorem
  that needs urlparse to return normally restricts itself to links whose
  network location holds no bracket at all (cleanLink below).  The total
  pyUrlparse used for filename derivation is faithful on such URLs; the
  run-level statements that depend on it carry that restriction for the
  submitted URLs.
-/

namespace SubPDF

/-! ## Python string primitives -/

/-- Lowercase a string character-wise (Python str.lower, ASCII part). -/
def pyLower (s : String) : String := ⟨s.data.map Char.toLower⟩

/-- Whether the second list begins with the first list. -/
def hasLead : List Char → List Char → Bool
  | [], _ => true
  | _ :: _, [] => false
  | p :: ps, c :: cs => p == c && hasLead ps cs

/-- Python str.startswith. -/
def pyStartsWith (s pat : String) : Bool := hasLead pat.data s.data

/-- Python str.endswith. -/
def pyEndsWith (s pat : String) : Bool := hasLead pat.data.reverse s.data.reverse

/-- Split at the first occurrence of a (non-empty) separator: the value
`some (before, after)` mirrors Python `s.split(sep, 1)` returning two pieces,
`none` mirrors it returning the single piece `[s]`. -/
def splitFirst (pat : List Char) : List Char → Option (List Char × List Char)
  | [] => none
  | c :: rest =>
    if hasLead pat (c :: rest) then some ([], (c :: rest).drop pat.length)
    else
      match splitFirst pat rest with
      | some (a, b) => some (c :: a, b)
      | none => none

/-- Python whitespace characters (the ASCII members of the "\s" class). -/
def pyIsSpace (c : Char) : Bool :=
  c = ' ' || c = '\t' || c = '\n' || c = '\r' || c = '\x0b' || c = '\x0c'

/-- Python str.strip(). -/
def pyStrip (s : String) : String :=
  ⟨((s.data.dropWhile pyIsSpace).reverse.dropWhile pyIsSpace).reverse⟩

/-! ## urllib.parse.urlparse (CPython), restricted to what the source uses -/

/-- A character stripped from URL ends by urlsplit (C0 control or space). -/
def isC0OrSpace (c : Char) : Bool := c.val ≤ 32

/-- A character removed from URLs by urlsplit (tab, CR, LF). -/
def isUnsafeUrlChar (c : Char) : Bool := c = '\t' || c = '\r' || c = '\n'

/-- A character allowed in a URL scheme. -/
def isSchemeChar (c : Char) : Bool := c.isAlpha || c.isDigit || c = '+' || c = '-' || c = '.'

/-- Components returned by urllib.parse.urlparse. -/
structure UrlParts where
  scheme : String
  netloc : String
  path : String
  params : String
  query : String
  fragment : String
deriving DecidableEq

/-- Split at the first occurrence of a character: `(before, some after)` when
the character occurs, `(whole, none)` otherwise. -/
def splitAtChar (c : Char) (s : List Char) : List Char × Option (List Char) :=
  let pre := s.takeWhile (fun x => x != c)
  if pre.length = s.length then (s, none) else (pre, some ((s.drop pre.length).drop 1))

/-- urllib.parse.urlsplit: sanitize, split off scheme, netloc, fragment, query. -/
def pyUrlsplit (url : String) : UrlParts :=
  let u1 := ((url.data.dropWhile isC0OrSpace).reverse.dropWhile isC0OrSpace).reverse
  let u2 := u1.filter (fun c => !isUnsafeUrlChar c)
  let pre := u2.takeWhile (fun c => c != ':')
  let schemeOk := decide (pre.length < u2.length) &&
    (match pre with
     | [] => false
     | c :: _ => c.isAlpha) && pre.all isSchemeChar
  let scheme := if schemeOk then pre.map Char.toLower else []
  let rest := if schemeOk then u2.drop (pre.length + 1) else u2
  let netlocSplit : List Char × List Char :=
    match rest with
    | '/' :: '/' :: r =>
      let nl := r.takeWhile (fun c => c != '/' && c != '?' && c != '#')
      (nl, r.drop nl.length)
    | _ => ([], rest)
  let netloc := netlocSplit.1
  let rest2 := netlocSplit.2
  let fragSplit := splitAtChar '#' rest2
  let rest3 := fragSplit.1
  let fragment := (fragSplit.2).getD []
  let querySplit := splitAtChar '?' rest3
  let path := querySplit.1
  let query := (querySplit.2).getD []
  ⟨⟨scheme⟩, ⟨netloc⟩, ⟨path⟩, "", ⟨query⟩, ⟨fragment⟩⟩

/-- The schemes for which urlparse separates parameters from the path. -/
def usesParams : List String :=
  ["", "ftp", "hdl", "prospero", "http", "imap", "https", "shttp", "rtsp",
   "rtspu", "sip", "sips", "mms", "sftp", "tel"]

/-- urllib.parse: split `;parameters` off the final path segment. -/
def splitParams (path : List Char) : List Char × List Char :=
  if path.contains '/' then
    let revPath := path.reverse
    let segRev := revPath.takeWhile (fun c => c != '/')
    let seg := segRev.reverse
    let dir := (revPath.drop segRev.length).reverse
    match splitAtChar ';' seg with
    | (a, some b) => (dir ++ a, b)
    | (_, none) => (path, [])
  else
    match splitAtChar ';' path with
    | (a, some b) => (a, b)
    | (_, none) => (path, [])

/-- urllib.parse.urlparse. -/
def pyUrlparse (url : String) : UrlParts :=
  let r := pyUrlsplit url
  if usesParams.contains r.scheme && r.path.data.contains ';' then
    let ps := splitParams r.path.data
    { r with path := ⟨ps.1⟩, params := ⟨ps.2⟩ }
  else r

/-- os.path.basename: the part of the path after its last slash. -/
def pyBasename (p : String) : String :=
  ⟨(p.data.reverse.takeWhile (fun c => c != '/')).reverse⟩

/-- os.path.join for two components (POSIX). -/
def pyJoin (a b : String) : String :=
  if pyStartsWith b "/" then b
  else if a = "" || pyEndsWith a "/" then a ++ b
  else a ++ "/" ++ b

/-- Whether urlsplit raises ValueError("Invalid IPv6 URL") for this URL: the
network location it extracts holds an unbalanced '[' or ']'.  (Raised by
every Python 3.  A balanced-bracket host is additionally validated from
CPython 3.11 on; that version-dependent path is not modelled and the
theorems below stay on bracket-free network locations.) -/
def urlsplitRaises (url : String) : Bool :=
  let nl := (pyUrlsplit url).netloc.data
  (nl.contains '[' && !nl.contains ']') || (nl.contains ']' && !nl.contains '[')

/-! ## Domain resolver: parse_domains_from_links (src/SubPDF.py lines 184-202) -/

/-- One iteration of the loop of parse_domains_from_links, for a single link.
`Except.error ()` models an exception escaping the iteration: the uncaught
IndexError raised by `link.split("mailto:", 1)[1]` when the link matches
"mailto:" only case-insensitively (the guard lowers the link, the split does
not), and the uncaught ValueError raised by `urlparse(link)` at line 199 when
the link's network location holds an unbalanced bracket; `Except.ok none`
models an iteration that adds no domain. -/
def domainOfLinkE (link : String) : Except Unit (Option String) :=
  if pyStartsWith (pyLower link) "mailto:" && link.data.contains '@' then
    match splitFirst "mailto:".data link.data with
    | none => Except.error ()
    | some (_, email_part) =>
      if email_part.contains '@' then
        match splitFirst ['@'] email_part with
        | some (_, domain_part) => Except.ok (some (pyLower ⟨domain_part⟩))
        | none => Except.ok none
      else Except.ok none
  else
    if urlsplitRaises link then Except.error ()
    else
      let parsed := pyUrlparse link
      Except.ok (if parsed.netloc = "" then none else some (pyLower parsed.netloc))

/-- The domain a single link contributes, when its iteration does not raise. -/
def domainOfLink (link : String) : Option String :=
  match domainOfLinkE link with
  | Except.ok d => d
  | Except.error _ => none

/-- Whether processing the link raises one of the exceptions described
above. -/
def linkCrashes (link : String) : Bool :=
  match domainOfLinkE link with
  | Except.ok _ => false
  | Except.error _ => true

/-- parse_domains_from_links: `none` models the function raising (the whole
call aborts, losing all domains); `some s` models a normal return of the
domain set.  Python iterates the set in unspecified order, but both the raised
case (some link crashes) and the returned set are order-independent. -/
def parse_domains_from_links (link_set : Finset String) : Option (Finset String) :=
  if link_set.filter (fun l => linkCrashes l) = ∅ then
    some (link_set.biUnion (fun l => (domainOfLink l).toFinset))
  else none

/-! ## PDF link extractor: extract_links_from_pdf (src/SubPDF.py lines 131-182) -/

/-- A character ending a URL match of the extraction regex: whitespace or a
closing parenthesis. -/
def urlStopChar (c : Char) : Bool := pyIsSpace c || c = ')'

/-- Try to match one alternative of the URL pattern: the literal scheme part
followed by one or more non-stop characters (greedy).  Returns the match and
the remaining input. -/
def tryPat (pat : List Char) (s : List Char) : Option (List Char × List Char) :=
  if hasLead pat s then
    let rest := s.drop pat.length
    let run := rest.takeWhile (fun c => !urlStopChar c)
    if run.isEmpty then none else some (pat ++ run, rest.drop run.length)
  else none

/-- Try the regex `(mailto:[^\s)]+|ftp://[^\s)]+|file://[^\s)]+|https?://[^\s)]+)`
at the current position.  The literal alternatives exclude each other, and the
greedy `s?` prefers "https://" over "http://". -/
def tryMatchAt (s : List Char) : Option (List Char × List Char) :=
  match tryPat "mailto:".data s with
  | some r => some r
  | none =>
    match tryPat "ftp://".data s with
    | some r => some r
    | none =>
      match tryPat "file://".data s with
      | some r => some r
      | none =>
        match tryPat "https://".data s with
        | some r => some r
        | none => tryPat "http://".data s

/-- Left-to-right non-overlapping scan (re.findall).  The fuel starts at the
input length; every step consumes at least one character, so it never runs
out before the input does. -/
def findUrlsAux : Nat → List Char → List (List Char)
  | 0, _ => []
  | _ + 1, [] => []
  | fuel + 1, c :: rest =>
    match tryMatchAt (c :: rest) with
    | some (m, rest2) => m :: findUrlsAux fuel rest2
    | none => findUrlsAux fuel rest

/-- re.findall of the URL pattern over a string. -/
def pyFindall (s : String) : List String :=
  (findUrlsAux s.data.length s.data).map (fun l => ⟨l⟩)

/-- A downloaded PDF as the extractor observes it through PyPDF2:
its byte size, the per-page link-annotation URIs seen by the first pass
(`none` when that parse raises), and the per-page extract_text results seen by
the second, independent parse (`none` when it raises; a page yielding no text
is `none` inside the list).  A parse failure part-way through a pass is
modelled as failing the whole pass. -/
structure PdfFile where
  size : Nat
  annotRead : Option (List (List String))
  textRead : Option (List (Option String))
deriving DecidableEq

/-- extract_links_from_pdf: empty-file fast path, an annotation pass and a
text pass each contributing to one result set (the source accumulates both
passes into a single set `urls_found`, written here as a union). -/
def extract_links_from_pdf (f : PdfFile) : Finset String :=
  if f.size = 0 then ∅
  else
    let s1 : Finset String :=
      match f.annotRead with
      | none => ∅
      | some pages => pages.foldl (fun acc uris => uris.foldl (fun a u => insert u a) acc) ∅
    let s2 : Finset String :=
      match f.textRead with
      | none => ∅
      | some pages =>
        let full_text := pages.foldl (fun acc t => acc ++ t.getD "") ""
        (pyFindall full_text).foldl (fun a m => insert (pyStrip m) a) ∅
    s1 ∪ s2

/-! ## Page link scanner: get_all_pdf_links_from_website (src/SubPDF.py lines 77-100) -/

/-- get_all_pdf_links_from_website.  `resolve` abstracts urllib's urljoin
(it returns an absolute href unchanged); `resp` abstracts the transport and
the HTML parse: `none` is a RequestException, `some (status, hrefs)` is a
response carrying the hrefs of the page's anchors. -/
def get_all_pdf_links_from_website (resolve : String → String → String)
    (resp : Option (Nat × List String)) (base_url : String) : Finset String :=
  match resp with
  | none => ∅
  | some (status, hrefs) =>
    if status = 200 then
      hrefs.foldl (fun acc href =>
        let full_url := resolve base_url href
        if pyEndsWith (pyLower full_url) ".pdf" then insert full_url acc else acc) ∅
    else ∅

/-! ## PDF fetcher: download_pdf (src/SubPDF.py lines 102-129) -/

/-- The download directory as a map from paths to stored PDF contents. -/
def Fs : Type := String → Option PdfFile

/-- The empty directory. -/
def fsEmpty : Fs := fun _ => none

/-- Write a file. -/
def fsSet (fs : Fs) (p : String) (v : PdfFile) : Fs :=
  fun q => if q = p then some v else fs q

/-- Delete a file. -/
def fsRemove (fs : Fs) (p : String) : Fs :=
  fun q => if q = p then none else fs q

/-- The filename download_pdf derives from the URL (line 110):
`os.path.basename(urlparse(pdf_url).path) or "temp.pdf"`. -/
def download_filename (pdf_url : String) : String :=
  let b := pyBasename (pyUrlparse pdf_url).path
  if b = "" then "temp.pdf" else b

/-- The filename the download-failure path of handle_pdf_link derives from the
URL (line 216), the same expression as line 110. -/
def failure_filename (pdf_url : String) : String :=
  let b := pyBasename (pyUrlparse pdf_url).path
  if b = "" then "temp.pdf" else b

/-- download_pdf.  `net` abstracts the transport: `none` is a
RequestException, `some (status, body)` a response whose body parses as the
given PdfFile.  Returns the result (the local path or the `None` failure
signal), the directory afterwards, and whether a network request was issued. -/
def download_pdf (net : String → Option (Nat × PdfFile)) (fs : Fs)
    (pdf_url download_folder : String) : Option String × Fs × Bool :=
  let filename := download_filename pdf_url
  let filepath := pyJoin download_folder filename
  if (fs filepath).isSome then (some filepath, fs, false)
  else
    match net pdf_url with
    | some (status, body) =>
      if status = 200 then (some filepath, fsSet fs filepath body, true)
      else (none, fs, true)
    | none => (none, fs, true)

/-! ## Per-task unit: handle_pdf_link (src/SubPDF.py lines 204-230) -/

/-- handle_pdf_link.  The first component is the task's `(filename, domains)`
result, or `none` when the unit raises (the resolver's IndexError escaping the
task — the orchestrator catches it and drops the contribution); the second is
the directory afterwards. -/
def handle_pdf_link (net : String → Option (Nat × PdfFile)) (fs : Fs)
    (pdf_url download_folder : String) (ephemeral_mode : Bool) :
    Option (String × Finset String) × Fs :=
  match download_pdf net fs pdf_url download_folder with
  | (none, fs2, _) => (some (failure_filename pdf_url, ∅), fs2)
  | (some filepath, fs2, _) =>
    match fs2 filepath with
    | none => (none, fs2)
    | some pdf =>
      match parse_domains_from_links (extract_links_from_pdf pdf) with
      | none => (none, fs2)
      | some domain_set =>
        let fs3 := if ephemeral_mode then fsRemove fs2 filepath else fs2
        (some (pyBasename filepath, domain_set), fs3)

/-! ## Orchestrator merge and completion loop (src/SubPDF.py lines 501-527) -/

/-- The final mapping: its key set and, for each key, its domain set. -/
structure ResultMapping where
  keys : Finset String
  val : String → Finset String

/-- The initial empty dict (line 390). -/
def emptyMapping : ResultMapping := ⟨∅, fun _ => ∅⟩

/-- One completion merged into the dict (lines 512-514 / 523-525): insert the
key if absent, then union the domain set in. -/
def mergeResult (m : ResultMapping) (r : String × Finset String) : ResultMapping :=
  ⟨insert r.1 m.keys, fun k => if k = r.1 then m.val k ∪ r.2 else m.val k⟩

/-- Merge an optional contribution: an escaped task exception is caught and
logged, contributing nothing (lines 515-516 / 526-527). -/
def mergeOpt (m : ResultMapping) (r : Option (String × Finset String)) : ResultMapping :=
  match r with
  | none => m
  | some x => mergeResult m x

/-- The pipeline draining completions in a given order: each submitted PDF URL
runs handle_pdf_link against the shared directory state, and the orchestrator
merges its contribution.  The list order models one completion/interleaving
order of the worker pool. -/
def runTasks (net : String → Option (Nat × PdfFile)) (download_folder : String)
    (ephemeral_mode : Bool) : List String → Fs → ResultMapping → ResultMapping × Fs
  | [], fs, m => (m, fs)
  | url :: rest, fs, m =>
    match handle_pdf_link net fs url download_folder ephemeral_mode with
    | (none, fs2) => runTasks net download_folder ephemeral_mode rest fs2 m
    | (some r, fs2) => runTasks net download_folder ephemeral_mode rest fs2 (mergeResult m r)

/-! ## Seed collection and webpage scanning order (src/SubPDF.py lines 393-484) -/

/-- Truthiness of an optional CLI string argument (lines 395, 397, 468). -/
def truthyOpt : Option String → List String
  | none => []
  | some u => if u = "" then [] else [u]

/-- Deduplication keeping first occurrences, modelling the contents of the
Python set `all_urls` (its iteration order is abstracted as insertion order;
the claims below do not depend on it). -/
def dedupAux (seen : List String) : List String → List String
  | [] => []
  | x :: xs => if seen.contains x then dedupAux seen xs else x :: dedupAux (x :: seen) xs

/-- Entry point of the deduplication. -/
def dedupKeepFirst (l : List String) : List String := dedupAux [] l

/-- The contents of `all_urls` (lines 393-405): the -u argument, the -pu
argument, and the stripped non-empty lines of the input list. -/
def collectAllUrls (argUrl argPdfUrl : Option String) (fileUrls : List String) : List String :=
  dedupKeepFirst (truthyOpt argUrl ++ truthyOpt argPdfUrl ++
    (fileUrls.map pyStrip).filter (fun u => u != ""))

/-- The sequence of webpage URLs fetched by get_all_pdf_links_from_website
during one run (lines 468-484): the -u argument first (line 471), then every
member of `all_webpage_urls` (line 481) — which also contains the -u argument
when it does not end in ".pdf". -/
def webpageFetchSequence (argUrl argPdfUrl : Option String) (fileUrls : List String) :
    List String :=
  let all_urls := collectAllUrls argUrl argPdfUrl fileUrls
  let all_webpage_urls := all_urls.filter (fun u => !pyEndsWith (pyLower u) ".pdf")
  truthyOpt argUrl ++ all_webpage_urls

/-! ## Statement-side derivations and invariants used by the theorems -/

/-- The part of a link after the 7-character "mailto:" scheme marker. -/
def mailtoRest (s : String) : String := ⟨s.data.drop 7⟩

/-- The part of a string strictly after its first '@' (empty when none). -/
def afterFirstAt (s : String) : String :=
  ⟨(s.data.dropWhile (fun c => c != '@')).drop 1⟩

/-- The path in the download directory targeted by a task. -/
def targetPath (folder u : String) : String := pyJoin folder (download_filename u)

/-- What one task contributes, as a function of the network and of the
directory content at its own target path only (handle_pdf_link touches no
other path; see handle_fst below). -/
def taskOutcome (net : String → Option (Nat × PdfFile)) (folder u : String)
    (c : Option PdfFile) : Option (String × Finset String) :=
  match c with
  | some pdf =>
    (match parse_domains_from_links (extract_links_from_pdf pdf) with
     | none => none
     | some d => some (pyBasename (targetPath folder u), d))
  | none =>
    match net u with
    | some (status, body) =>
      if status = 200 then
        match parse_domains_from_links (extract_links_from_pdf body) with
        | none => none
        | some d => some (pyBasename (targetPath folder u), d)
      else some (failure_filename u, ∅)
    | none => some (failure_filename u, ∅)

/-- A link whose network location holds no square bracket: on such links
every Python 3 urlparse returns normally, so the total pyUrlparse is
faithful.  (A bracketed network location either raises the modelled
unbalanced-bracket ValueError or reaches host validation that differs across
Python versions.) -/
def cleanLink (l : String) : Bool :=
  !(pyUrlsplit l).netloc.data.contains '[' && !(pyUrlsplit l).netloc.data.contains ']'

/-- A PDF file whose extracted link set the resolver survives — no extracted
link raises (the mailto IndexError or the unbalanced-bracket ValueError) —
and all of whose extracted links are cleanLink, keeping the run inside the
region where the urlparse model is version-independent. -/
def goodPdf (pdf : PdfFile) : Prop :=
  (parse_domains_from_links (extract_links_from_pdf pdf)).isSome = true ∧
  ∀ l ∈ extract_links_from_pdf pdf, cleanLink l = true

/-- A network all of whose response bodies are goodPdf. -/
def goodNet (net : String → Option (Nat × PdfFile)) : Prop :=
  ∀ u s pdf, net u = some (s, pdf) → goodPdf pdf

/-- A directory all of whose stored files are goodPdf. -/
def goodFs (fs : Fs) : Prop := ∀ p pdf, fs p = some pdf → goodPdf pdf

/-- One fetcher invocation's observable trace entry. -/
structure DlEvent where
  url : String
  path : String
  issued : Bool
  wrote : Bool

/-- A sequence of download_pdf invocations sharing one directory, as the
tasks of one run perform them (modelled sequentially, with no deletion
between calls).  Records per URL the target path, whether a network request
was issued, and whether the file was written. -/
def runDownloads (net : String → Option (Nat × PdfFile)) (folder : String) :
    List String → Fs → List DlEvent × Fs
  | [], fs => ([], fs)
  | u :: rest, fs =>
    let p := pyJoin folder (download_filename u)
    let r := download_pdf net fs u folder
    let ev : DlEvent := ⟨u, p, r.2.2, (fs p).isNone && r.1.isSome⟩
    let rest2 := runDownloads net folder rest r.2.1
    (ev :: rest2.1, rest2.2)

/-! ## Concrete instances used by counterexamples and witnesses -/

/-- A PDF whose only link matches "mailto:" case-insensitively but not
literally: resolving it raises the IndexError. -/
def pdfBad : PdfFile := ⟨10, some [["MAILTO:x@y"]], some []⟩

/-- A network serving pdfBad for one URL. -/
def netC1 : String → Option (Nat × PdfFile) :=
  fun u => if u = "http://h/a.pdf" then some (200, pdfBad) else none

/-- A PDF whose only link is http://one.com. -/
def pdfOne : PdfFile := ⟨10, some [["http://one.com"]], some []⟩

/-- A PDF whose only link is http://two.com. -/
def pdfTwo : PdfFile := ⟨10, some [["http://two.com"]], some []⟩

/-- Two distinct URLs with the same derived filename a.pdf but different
content. -/
def netC9 : String → Option (Nat × PdfFile) :=
  fun u =>
    if u = "http://x/a.pdf" then some (200, pdfOne)
    else if u = "http://y/a.pdf" then some (200, pdfTwo) else none

/-- A network on which the first fetch of a.pdf fails (404) and the second,
from a different host with the same derived filename, succeeds. -/
def netC6 : String → Option (Nat × PdfFile) :=
  fun u =>
    if u = "http://x/a.pdf" then some (404, pdfOne)
    else if u = "http://y/a.pdf" then some (200, pdfTwo) else none

/-- The spec's link-extraction example: an annotation URI https://a.com/1 and
a textual link https://b.com/2. -/
def pdfExample : PdfFile :=
  ⟨100, some [["https://a.com/1"]], some [some "see https://b.com/2 ok"]⟩

/-- A directory already containing dl/a.pdf. -/
def fsPre : Fs := fsSet fsEmpty "dl/a.pdf" pdfOne

/-! ## Generic helper lemmas -/

lemma hasLead_append (p t : List Char) : hasLead p (p ++ t) = true := by
  induction p with
  | nil => rfl
  | cons c cs ih => simp [hasLead, ih]

lemma hasLead_iff (p s : List Char) : hasLead p s = true ↔ ∃ t, s = p ++ t := by
  constructor
  · intro h
    induction p generalizing s with
    | nil => exact ⟨s, rfl⟩
    | cons c cs ih =>
      cases s with
      | nil => simp [hasLead] at h
      | cons a as =>
        simp only [hasLead, Bool.and_eq_true, beq_iff_eq] at h
        obtain ⟨t, ht⟩ := ih as h.2
        exact ⟨t, by simp [h.1, ht]⟩
  · rintro ⟨t, rfl⟩
    exact hasLead_append p t

lemma takeWhile_append_all (p : Char → Bool) (l1 l2 : List Char)
    (h : ∀ x ∈ l1, p x = true) :
    (l1 ++ l2).takeWhile p = l1 ++ l2.takeWhile p := by
  induction l1 with
  | nil => rfl
  | cons c cs ih =>
    have hc : p c = true := h c (by simp)
    simp [List.takeWhile_cons, hc, ih (fun x hx => h x (by simp [hx]))]

lemma contains_append_right (l1 l2 : List Char) (c : Char) (h : l2.contains c = true) :
    (l1 ++ l2).contains c = true := by
  rw [List.contains, List.elem_iff] at h ⊢
  exact List.mem_append_right l1 h

/-! ## splitFirst characterizations -/

lemma splitFirst_at_zero (pat t : List Char) (hp : pat ≠ []) :
    splitFirst pat (pat ++ t) = some ([], t) := by
  cases pat with
  | nil => exact absurd rfl hp
  | cons p ps =>
    show splitFirst (p :: ps) (p :: (ps ++ t)) = some ([], t)
    rw [splitFirst, if_pos]
    · have : (p :: (ps ++ t)).drop (p :: ps).length = t := by
        simp only [List.length_cons, List.drop_succ_cons]
        exact List.drop_left ps t
      rw [this]
    · exact hasLead_append (p :: ps) t

lemma splitFirst_single (c : Char) (s : List Char) (h : c ∈ s) :
    splitFirst [c] s =
      some (s.takeWhile (fun x => x != c), (s.dropWhile (fun x => x != c)).drop 1) := by
  induction s with
  | nil => cases h
  | cons a as ih =>
    by_cases hac : a = c
    · subst hac
      rw [splitFirst, if_pos (by simp [hasLead])]
      simp [List.takeWhile_cons, List.dropWhile_cons]
    · have hcs : c ∈ as := by
        rcases List.mem_cons.1 h with h1 | h1
        · exact absurd h1.symm hac
        · exact h1
      have hca : ¬c = a := fun e => hac e.symm
      rw [splitFirst, if_neg (by simp [hasLead, hca]), ih hcs]
      simp [List.takeWhile_cons, List.dropWhile_cons, hac]

/-! ## Finset fold membership lemmas -/

lemma mem_foldl_insert (l : List String) (s : Finset String) (u : String) :
    u ∈ l.foldl (fun a x => insert x a) s ↔ u ∈ l ∨ u ∈ s := by
  induction l generalizing s with
  | nil => simp
  | cons c cs ih =>
    rw [List.foldl_cons, ih]
    simp only [List.mem_cons, Finset.mem_insert]
    tauto

lemma mem_foldl_insert_strip (l : List String) (s : Finset String) (u : String) :
    u ∈ l.foldl (fun a m => insert (pyStrip m) a) s ↔ (∃ m ∈ l, u = pyStrip m) ∨ u ∈ s := by
  induction l generalizing s with
  | nil => simp
  | cons c cs ih =>
    rw [List.foldl_cons, ih]
    simp only [List.mem_cons, Finset.mem_insert]
    constructor
    · rintro (⟨m, hm, rfl⟩ | h | h)
      · exact Or.inl ⟨m, Or.inr hm, rfl⟩
      · exact Or.inl ⟨c, Or.inl rfl, h⟩
      · exact Or.inr h
    · rintro (⟨m, hm | hm, rfl⟩ | h)
      · exact Or.inr (Or.inl (by rw [hm]))
      · exact Or.inl ⟨m, hm, rfl⟩
      · exact Or.inr (Or.inr h)

lemma mem_foldl_pages (pages : List (List String)) (s : Finset String) (u : String) :
    u ∈ pages.foldl (fun acc uris => uris.foldl (fun a x => insert x a) acc) s ↔
      (∃ pg ∈ pages, u ∈ pg) ∨ u ∈ s := by
  induction pages generalizing s with
  | nil => simp
  | cons pg pgs ih =>
    rw [List.foldl_cons, ih]
    simp only [List.mem_cons, mem_foldl_insert]
    constructor
    · rintro (⟨q, hq, hu⟩ | h | h)
      · exact Or.inl ⟨q, Or.inr hq, hu⟩
      · exact Or.inl ⟨pg, Or.inl rfl, h⟩
      · exact Or.inr h
    · rintro (⟨q, hq | hq, hu⟩ | h)
      · exact Or.inr (Or.inl (hq ▸ hu))
      · exact Or.inl ⟨q, hq, hu⟩
      · exact Or.inr (Or.inr h)

lemma mem_scanner_foldl (resolve : String → String → String) (base_url : String)
    (hrefs : List String) (s : Finset String) (u : String) :
    u ∈ hrefs.foldl (fun acc href =>
        let full_url := resolve base_url href
        if pyEndsWith (pyLower full_url) ".pdf" then insert full_url acc else acc) s ↔
      (∃ h ∈ hrefs, u = resolve base_url h ∧ pyEndsWith (pyLower u) ".pdf" = true) ∨ u ∈ s := by
  induction hrefs generalizing s with
  | nil => simp
  | cons c cs ih =>
    rw [List.foldl_cons]
    by_cases hc : pyEndsWith (pyLower (resolve base_url c)) ".pdf" = true
    · simp only [hc, if_true, ih, List.mem_cons, Finset.mem_insert]
      constructor
      · rintro (⟨h, hh, rfl, hp⟩ | h | h)
        · exact Or.inl ⟨h, Or.inr hh, rfl, hp⟩
        · exact Or.inl ⟨c, Or.inl rfl, h, h ▸ hc⟩
        · exact Or.inr h
      · rintro (⟨h, hh | hh, rfl, hp⟩ | h)
        · exact Or.inr (Or.inl (by rw [hh]))
        · exact Or.inl ⟨h, hh, rfl, hp⟩
        · exact Or.inr (Or.inr h)
    · simp only [hc, if_false, ih, List.mem_cons]
      constructor
      · rintro (⟨h, hh, rfl, hp⟩ | h)
        · exact Or.inl ⟨h, Or.inr hh, rfl, hp⟩
        · exact Or.inr h
      · rintro (⟨h, hh | hh, rfl, hp⟩ | h)
        · exact absurd (hh ▸ hp) hc
        · exact Or.inl ⟨h, hh, rfl, hp⟩
        · exact Or.inr h

/-! ## C2 — PDF link extractor -/

/-- C2: for a non-empty PDF file the extracted set is exactly the union of
the annotation pass (every page-level link-annotation URI, when that parse
succeeds) and the text pass (every stripped non-overlapping match of the URL
regex over the concatenated page text, when that parse succeeds); a failed
pass contributes nothing while the other pass's links still appear. -/
theorem claim2_theorem (f : PdfFile) (hsz : f.size ≠ 0) (u : String) :
    u ∈ extract_links_from_pdf f ↔
      (∃ pages, f.annotRead = some pages ∧ ∃ pg ∈ pages, u ∈ pg) ∨
      (∃ pages, f.textRead = some pages ∧
        ∃ m ∈ pyFindall (pages.foldl (fun acc t => acc ++ t.getD "") ""), u = pyStrip m) := by
  rw [extract_links_from_pdf, if_neg hsz]
  cases ha : f.annotRead with
  | none =>
    cases ht : f.textRead with
    | none => simp
    | some pagesT => simp [mem_foldl_insert_strip]
  | some pagesA =>
    cases ht : f.textRead with
    | none => simp [mem_foldl_pages]
    | some pagesT => simp [mem_foldl_pages, mem_foldl_insert_strip]

/-- C2, witness: the spec's example applied through the theorem. -/
theorem claim2_witness :
    "https://b.com/2" ∈ extract_links_from_pdf pdfExample ↔
      (∃ pages, pdfExample.annotRead = some pages ∧ ∃ pg ∈ pages, "https://b.com/2" ∈ pg) ∨
      (∃ pages, pdfExample.textRead = some pages ∧
        ∃ m ∈ pyFindall (pages.foldl (fun acc t => acc ++ t.getD "") ""),
          "https://b.com/2" = pyStrip m) :=
  claim2_theorem pdfExample (by decide) "https://b.com/2"

/-! ## Fetcher and task-unit characterization lemmas -/

lemma download_hit (net : String → Option (Nat × PdfFile)) (fs : Fs) (u folder : String)
    (pdf : PdfFile) (h : fs (targetPath folder u) = some pdf) :
    download_pdf net fs u folder = (some (targetPath folder u), fs, false) := by
  rw [targetPath] at h
  simp [download_pdf, h, targetPath]

lemma download_write (net : String → Option (Nat × PdfFile)) (fs : Fs) (u folder : String)
    (body : PdfFile) (habs : fs (targetPath folder u) = none)
    (hnet : net u = some (200, body)) :
    download_pdf net fs u folder =
      (some (targetPath folder u), fsSet fs (targetPath folder u) body, true) := by
  rw [targetPath] at habs
  simp [download_pdf, habs, hnet, targetPath]

lemma download_fail (net : String → Option (Nat × PdfFile)) (fs : Fs) (u folder : String)
    (habs : fs (targetPath folder u) = none)
    (hfail : match net u with
             | some (s, _) => s ≠ 200
             | none => True) :
    download_pdf net fs u folder = (none, fs, true) := by
  rw [targetPath] at habs
  simp only [download_pdf, habs, Option.isSome_none, Bool.false_eq_true, if_false]
  cases hn : net u with
  | none => rfl
  | some sb =>
    obtain ⟨s, body⟩ := sb
    rw [hn] at hfail
    simp only [ne_eq] at hfail
    simp [hfail]

lemma handle_fst (net : String → Option (Nat × PdfFile)) (fs : Fs) (u folder : String)
    (eph : Bool) :
    (handle_pdf_link net fs u folder eph).1 =
      taskOutcome net folder u (fs (targetPath folder u)) := by
  cases hex : fs (targetPath folder u) with
  | some pdf =>
    rw [handle_pdf_link, download_hit net fs u folder pdf hex]
    cases hp : parse_domains_from_links (extract_links_from_pdf pdf) <;>
      simp [taskOutcome, hex, hp]
  | none =>
    cases hn : net u with
    | none =>
      rw [handle_pdf_link, download_fail net fs u folder hex (by rw [hn]; trivial)]
      simp [taskOutcome, hn]
    | some sb =>
      obtain ⟨s, body⟩ := sb
      by_cases h200 : s = 200
      · subst h200
        rw [handle_pdf_link, download_write net fs u folder body hex hn]
        cases hp : parse_domains_from_links (extract_links_from_pdf body) <;>
          simp [taskOutcome, hn, hp, fsSet]
      · rw [handle_pdf_link, download_fail net fs u folder hex (by rw [hn]; exact h200)]
        simp [taskOutcome, hn, h200]

lemma handle_snd (net : String → Option (Nat × PdfFile)) (fs : Fs) (u folder : String)
    (eph : Bool) (q : String) (hq : q ≠ targetPath folder u) :
    (handle_pdf_link net fs u folder eph).2 q = fs q := by
  cases hex : fs (targetPath folder u) with
  | some pdf =>
    rw [handle_pdf_link, download_hit net fs u folder pdf hex]
    cases hp : parse_domains_from_links (extract_links_from_pdf pdf) <;>
      cases eph <;> simp [hex, hp, fsRemove, hq]
  | none =>
    cases hn : net u with
    | none =>
      rw [handle_pdf_link, download_fail net fs u folder hex (by rw [hn]; trivial)]
    | some sb =>
      obtain ⟨s, body⟩ := sb
      by_cases h200 : s = 200
      · subst h200
        rw [handle_pdf_link, download_write net fs u folder body hex hn]
        cases hp : parse_domains_from_links (extract_links_from_pdf body) <;>
          cases eph <;> simp [hp, fsRemove, fsSet, hq]
      · rw [handle_pdf_link, download_fail net fs u folder hex (by rw [hn]; exact h200)]

lemma handle_fail (net : String → Option (Nat × PdfFile)) (fs : Fs) (u folder : String)
    (eph : Bool) (habs : fs (targetPath folder u) = none)
    (hfail : match net u with
             | some (s, _) => s ≠ 200
             | none => True) :
    handle_pdf_link net fs u folder eph = (some (failure_filename u, ∅), fs) := by
  rw [handle_pdf_link, download_fail net fs u folder habs hfail]

/-! ## Filename lemmas -/

lemma pyBasename_no_slash (p : String) : '/' ∉ (pyBasename p).data := by
  intro h
  rw [pyBasename] at h
  have h2 : '/' ∈ (p.data.reverse.takeWhile (fun c => c != '/')) := List.mem_reverse.1 h
  have := List.mem_takeWhile_imp h2
  simp at this

lemma failure_eq_download (u : String) : failure_filename u = download_filename u := rfl

lemma download_filename_ok (u : String) :
    download_filename u ≠ "" ∧ '/' ∉ (download_filename u).data := by
  rw [download_filename]
  by_cases hb : pyBasename (pyUrlparse u).path = ""
  · rw [if_pos hb]
    exact ⟨by decide, by decide⟩
  · rw [if_neg hb]
    exact ⟨hb, pyBasename_no_slash _⟩

lemma pyBasename_join (a b : String) (hns : '/' ∉ b.data) :
    pyBasename (pyJoin a b) = b := by
  have hall : ∀ x ∈ b.data.reverse, (x != '/') = true := by
    intro x hx
    have hxb : x ∈ b.data := List.mem_reverse.1 hx
    simp only [bne_iff_ne, ne_eq]
    exact fun e => hns (e ▸ hxb)
  rw [pyJoin]
  by_cases h1 : pyStartsWith b "/" = true
  · exfalso
    obtain ⟨t, ht⟩ := (hasLead_iff _ _).1 h1
    exact hns (by rw [ht]; simp)
  · rw [if_neg (by simpa using h1)]
    by_cases ha : a = ""
    · rw [if_pos (by simp [ha])]
      subst ha
      rw [pyBasename]
      have : ("" ++ b).data = b.data := by simp
      rw [this, List.takeWhile_eq_self_iff.2 hall]  -- hmm name check below
      simp
    · by_cases he : pyEndsWith a "/" = true
      · rw [if_pos (by simp [he])]
        obtain ⟨t, ht⟩ := (hasLead_iff _ _).1 he
        rw [pyBasename]
        have hdata : (a ++ b).data.reverse = b.data.reverse ++ a.data.reverse := by
          simp
        rw [hdata, takeWhile_append_all _ _ _ hall, ht]
        simp [List.takeWhile_cons]
      · rw [if_neg (by simp [ha, he])]
        rw [pyBasename]
        have hdata : (a ++ "/" ++ b).data.reverse = b.data.reverse ++ ('/' :: a.data.reverse) := by
          simp
        rw [hdata, takeWhile_append_all _ _ _ hall]
        simp [List.takeWhile_cons]

lemma basename_target (folder u : String) :
    pyBasename (targetPath folder u) = download_filename u :=
  pyBasename_join folder _ (download_filename_ok u).2

lemma dfn_temp (u : String) (h : pyBasename (pyUrlparse u).path = "") :
    download_filename u = "temp.pdf" := by
  rw [download_filename, if_pos h]

/-! ## Goodness preservation -/

lemma goodFs_set (fs : Fs) (p : String) (v : PdfFile) (hfs : goodFs fs) (hv : goodPdf v) :
    goodFs (fsSet fs p v) := by
  intro q pdf hq
  rw [fsSet] at hq
  by_cases h : q = p
  · rw [if_pos h] at hq
    cases hq
    exact hv
  · rw [if_neg h] at hq
    exact hfs q pdf hq

lemma goodFs_remove (fs : Fs) (p : String) (hfs : goodFs fs) : goodFs (fsRemove fs p) := by
  intro q pdf hq
  rw [fsRemove] at hq
  by_cases h : q = p
  · rw [if_pos h] at hq
    cases hq
  · rw [if_neg h] at hq
    exact hfs q pdf hq

lemma handle_good (net : String → Option (Nat × PdfFile)) (fs : Fs) (u folder : String)
    (eph : Bool) (hnet : goodNet net) (hfs : goodFs fs) :
    ∃ d fs2, handle_pdf_link net fs u folder eph = (some (download_filename u, d), fs2) ∧
      goodFs fs2 := by
  cases hex : fs (targetPath folder u) with
  | some pdf =>
    have hp : (parse_domains_from_links (extract_links_from_pdf pdf)).isSome = true :=
      (hfs _ pdf hex).1
    obtain ⟨d, hd⟩ := Option.isSome_iff_exists.1 hp
    refine ⟨d, if eph then fsRemove fs (targetPath folder u) else fs, ?_, ?_⟩
    · rw [handle_pdf_link, download_hit net fs u folder pdf hex]
      simp [hex, hd, basename_target]
    · cases eph with
      | false => simpa using hfs
      | true => simpa using goodFs_remove fs _ hfs
  | none =>
    cases hn : net u with
    | none =>
      exact ⟨∅, fs, by
        rw [handle_fail net fs u folder eph hex (by rw [hn]; trivial), failure_eq_download], hfs⟩
    | some sb =>
      obtain ⟨s, body⟩ := sb
      by_cases h200 : s = 200
      · subst h200
        have hb : goodPdf body := hnet u 200 body hn
        obtain ⟨d, hd⟩ := Option.isSome_iff_exists.1 hb.1
        have hgset : goodFs (fsSet fs (targetPath folder u) body) := goodFs_set fs _ body hfs hb
        refine ⟨d, if eph then fsRemove (fsSet fs (targetPath folder u) body)
            (targetPath folder u) else fsSet fs (targetPath folder u) body, ?_, ?_⟩
        · rw [handle_pdf_link, download_write net fs u folder body hex hn]
          simp [fsSet, hd, basename_target]
        · cases eph with
          | false => simpa using hgset
          | true => simpa using goodFs_remove _ _ hgset
      · exact ⟨∅, fs, by
          rw [handle_fail net fs u folder eph hex (by rw [hn]; exact h200),
            failure_eq_download], hfs⟩

/-! ## Orchestrator lemmas -/

lemma runTasks_cons (net : String → Option (Nat × PdfFile)) (folder : String) (eph : Bool)
    (u : String) (rest : List String) (fs : Fs) (m : ResultMapping) :
    runTasks net folder eph (u :: rest) fs m =
      runTasks net folder eph rest (handle_pdf_link net fs u folder eph).2
        (mergeOpt m (handle_pdf_link net fs u folder eph).1) := by
  rw [runTasks]
  cases hh : handle_pdf_link net fs u folder eph with
  | mk r fs2 =>
    cases r with
    | none => rfl
    | some x => rfl

lemma runTasks_keys (net : String → Option (Nat × PdfFile)) (folder : String) (eph : Bool)
    (urls : List String) (fs : Fs) (m : ResultMapping)
    (hnet : goodNet net) (hfs : goodFs fs) :
    (runTasks net folder eph urls fs m).1.keys =
      m.keys ∪ (urls.map download_filename).toFinset := by
  induction urls generalizing fs m with
  | nil => simp [runTasks]
  | cons u rest ih =>
    obtain ⟨d, fs2, hh, hg⟩ := handle_good net fs u folder eph hnet hfs
    rw [runTasks_cons, hh]
    have : mergeOpt m (some (download_filename u, d)) =
        mergeResult m (download_filename u, d) := rfl
    rw [this, ih fs2 _ hg]
    simp only [mergeResult, List.map_cons, List.toFinset_cons]
    rw [Finset.insert_union, Finset.union_insert]

/-! ## C3 — mailto domain extraction -/

/-- C3, counterexample: the claim says the resolver yields the lowercased
substring after the LAST '@' of a mailto link, which for
"mailto:a@b@c.com" would be "c.com"; the code splits at the FIRST '@'
(`email_part.split("@", 1)[1]`) and yields "b@c.com". -/
theorem claim3_counterexample :
    parse_domains_from_links {"mailto:a@b@c.com"} = some {"b@c.com"} ∧
    ({"b@c.com"} : Finset String) ≠ {"c.com"} := by decide

/-- C3, amended: for every raw link starting with the exact lowercase marker
"mailto:" and containing '@' after it, the resolver yields the lowercased
substring after the FIRST '@' of the part following the marker, without
parsing the link as a generic URL; in particular mailto:alice@Example.COM
yields exactly example.com.  (Links matching "mailto:" only case-insensitively
instead raise an uncaught IndexError, see claim3_counterexample's reason.) -/
theorem claim3_theorem (link : String)
    (h1 : pyStartsWith link "mailto:" = true)
    (h2 : (mailtoRest link).data.contains '@' = true) :
    domainOfLinkE link = Except.ok (some (pyLower (afterFirstAt (mailtoRest link)))) ∧
    parse_domains_from_links {"mailto:alice@Example.COM"} = some {"example.com"} := by
  refine ⟨?_, by decide⟩
  obtain ⟨t, ht⟩ := (hasLead_iff _ _).1 h1
  have hlen : ("mailto:".data).length = 7 := by decide
  have hrest : (mailtoRest link).data = t := by
    simp only [mailtoRest, ht]
    rw [← hlen]
    exact List.drop_left _ _
  have htc : t.contains '@' = true := by rwa [hrest] at h2
  have htm : '@' ∈ t := by rwa [List.contains, List.elem_iff] at htc
  have hguard : (pyStartsWith (pyLower link) "mailto:" && link.data.contains '@') = true := by
    have h1l : pyStartsWith (pyLower link) "mailto:" = true := by
      have : (pyLower link).data = "mailto:".data ++ t.map Char.toLower := by
        simp only [pyLower, ht, List.map_append]
        congr 1
      rw [pyStartsWith, this]
      exact hasLead_append _ _
    have h2l : link.data.contains '@' = true := by
      rw [ht]
      exact contains_append_right _ _ _ htc
    rw [h1l, h2l]
    rfl
  have hsplit : splitFirst "mailto:".data link.data = some ([], t) := by
    rw [ht]
    exact splitFirst_at_zero _ _ (by decide)
  have hsplit2 : splitFirst ['@'] t =
      some (t.takeWhile (fun x => x != '@'), (t.dropWhile (fun x => x != '@')).drop 1) :=
    splitFirst_single '@' t htm
  simp only [domainOfLinkE, hguard, if_true, hsplit, htc, hsplit2, afterFirstAt, hrest]

/-- C3, witness: the amended statement applied to mailto:alice@Example.COM. -/
theorem claim3_witness :
    domainOfLinkE "mailto:alice@Example.COM" = Except.ok (some "example.com") := by
  have h := ( claim3_theorem "mailto:alice@Example.COM" (by decide) (by decide)).1
  have e : pyLower (afterFirstAt (mailtoRest "mailto:alice@Example.COM")) = "example.com" := by
    decide
  rw [h, e]

/-! ## C4 — generic URL domain extraction -/

/-- C4, counterexample: the claim says every non-mailto link either yields
its lowercased network-location component (when non-empty) or contributes no
domain (when empty) — the resolver call always returns a set.  For the
reachable raw link "http://[x" the extracted network location is the
non-empty "[x", yet urlparse raises an uncaught
ValueError("Invalid IPv6 URL") (every Python 3), which aborts the whole
parse_domains_from_links call instead of yielding or dropping the link. -/
theorem claim4_counterexample :
    (pyUrlsplit "http://[x").netloc = "[x" ∧
    domainOfLinkE "http://[x" = Except.error () ∧
    parse_domains_from_links {"http://[x"} = none :=
  ⟨by decide, rfl, by decide⟩

/-- C4, amended: for every raw link that is not a mailto link and whose
network location holds no square bracket, the resolver yields the lowercased
network-location component when non-empty and contributes no domain when it
is empty (https://Sub.Example.com/x yields sub.example.com, a relative or
schemeless string contributes none); a non-mailto link whose network
location holds an unbalanced '[' or ']' instead raises an uncaught
ValueError that aborts the entire resolver call.  (Balanced-bracket hosts
are outside this statement: from CPython 3.11 they are further validated,
version-dependently.) -/
theorem claim4_theorem (link : String)
    (h : (pyStartsWith (pyLower link) "mailto:" && link.data.contains '@') = false)
    (hnb : cleanLink link = true) :
    domainOfLinkE link =
      Except.ok (if (pyUrlparse link).netloc = "" then none
                 else some (pyLower (pyUrlparse link).netloc)) ∧
    (∀ l : String,
      (pyStartsWith (pyLower l) "mailto:" && l.data.contains '@') = false →
      urlsplitRaises l = true → domainOfLinkE l = Except.error ()) ∧
    domainOfLink "https://Sub.Example.com/x" = some "sub.example.com" ∧
    domainOfLink "foo/bar.html" = none ∧
    domainOfLink "relative.pdf" = none := by
  refine ⟨?_, ?_, by decide, by decide, by decide⟩
  · simp only [cleanLink, Bool.and_eq_true, Bool.not_eq_true'] at hnb
    have hr : urlsplitRaises link = false := by
      have e : urlsplitRaises link =
          (((pyUrlsplit link).netloc.data.contains '[' &&
              !(pyUrlsplit link).netloc.data.contains ']') ||
            ((pyUrlsplit link).netloc.data.contains ']' &&
              !(pyUrlsplit link).netloc.data.contains '[')) := rfl
      rw [e, hnb.1, hnb.2]
      rfl
    simp only [domainOfLinkE, h, Bool.false_eq_true, if_false, hr]
  · intro l hm hr
    simp only [domainOfLinkE, hm, Bool.false_eq_true, if_false, hr, if_true]

/-- C4, witness. -/
theorem claim4_witness :
    domainOfLinkE "https://Sub.Example.com/x" =
      Except.ok (if (pyUrlparse "https://Sub.Example.com/x").netloc = "" then none
                 else some (pyLower (pyUrlparse "https://Sub.Example.com/x").netloc)) :=
  ( claim4_theorem "https://Sub.Example.com/x" (by decide) (by decide)).1

/-! ## C5 — page link scanner -/

/-- C5, counterexample: the claim says an anchor resolving to an absolute URL
whose lowercased PATH ends in ".pdf" is retained regardless of a query or
fragment suffix.  For https://a.com/doc.pdf?v=1 the path is /doc.pdf, which
does end in ".pdf", yet the code tests the WHOLE URL string
(`full_url.lower().endswith(".pdf")`) and drops the link. -/
theorem claim5_counterexample :
    pyEndsWith (pyLower (pyUrlparse "https://a.com/doc.pdf?v=1").path) ".pdf" = true ∧
    get_all_pdf_links_from_website (fun _ href => href)
      (some (200, ["https://a.com/doc.pdf?v=1"])) "https://a.com/" = ∅ := by decide

/-- C5, amended: on a 200 response the scanner returns exactly the resolved
absolute URLs whose ENTIRE lowercased URL string ends in ".pdf" (a query or
fragment after the .pdf path causes the link to be dropped); a transport
error yields the empty set. -/
theorem claim5_theorem (resolve : String → String → String) (base_url : String)
    (status : Nat) (hrefs : List String) (u : String) :
    (u ∈ get_all_pdf_links_from_website resolve (some (status, hrefs)) base_url ↔
      status = 200 ∧
        ∃ h ∈ hrefs, u = resolve base_url h ∧ pyEndsWith (pyLower u) ".pdf" = true) ∧
    get_all_pdf_links_from_website resolve none base_url = ∅ := by
  refine ⟨?_, rfl⟩
  by_cases h200 : status = 200
  · subst h200
    rw [get_all_pdf_links_from_website, if_pos rfl]
    rw [mem_scanner_foldl]
    simp
  · rw [get_all_pdf_links_from_website, if_neg h200]
    simp [h200]

/-! ## C7 — fetcher failure behavior -/

/-- C7: when the target file is absent and the fetch ends in a non-200 status
or a transport error, download_pdf returns the failure signal None, leaves
the directory exactly as it was (no partial file), and the error does not
propagate (the model is a total function: the source catches
RequestException and falls through to `return None`). -/
theorem claim7_theorem (net : String → Option (Nat × PdfFile)) (fs : Fs)
    (pdf_url folder : String)
    (habs : fs (pyJoin folder (download_filename pdf_url)) = none)
    (hfail : match net pdf_url with
             | some (s, _) => s ≠ 200
             | none => True) :
    download_pdf net fs pdf_url folder = (none, fs, true) := by
  simp only [download_pdf, habs, Option.isSome_none, Bool.false_eq_true, if_false]
  cases hn : net pdf_url with
  | none => rfl
  | some sb =>
    obtain ⟨s, body⟩ := sb
    rw [hn] at hfail
    simp only [ne_eq] at hfail
    simp [hfail]

/-- C7, witness: a 404 response for an absent file. -/
theorem claim7_witness :
    download_pdf (fun _ => some (404, ⟨0, none, none⟩)) fsEmpty "http://h/a.pdf" "dl" =
      (none, fsEmpty, true) :=
  claim7_theorem _ fsEmpty "http://h/a.pdf" "dl" rfl (by decide)

/-! ## C8 — seed webpages scanned exactly once -/

/-- C8: evaluating the seed-scanning phase at the failing input.  A non-PDF
webpage URL passed as the -u argument is fetched twice: once by the dedicated
args.url branch (line 471) and once more when the loop over
all_webpage_urls (line 481) reaches it, contradicting the claim that every
seed webpage is scanned exactly once. -/
theorem claim8_theorem :
    webpageFetchSequence (some "http://site.example/page") none [] =
      ["http://site.example/page", "http://site.example/page"] ∧
    (webpageFetchSequence (some "http://site.example/page") none []).count
      "http://site.example/page" = 2 := by decide

/-! ## C1 — ResultMapping key set -/

/-- C1, counterexample: a submitted task whose PDF downloads fine but whose
extracted link "MAILTO:x@y" makes the resolver raise contributes NO entry
(the orchestrator catches the escaped exception and drops it), so the final
key set is empty rather than the filename set derived from the submitted
URL. -/
theorem claim1_counterexample :
    (runTasks netC1 "dl" false ["http://h/a.pdf"] fsEmpty emptyMapping).1.keys = ∅ ∧
    (["http://h/a.pdf"].map download_filename).toFinset = {"a.pdf"} ∧
    (∅ : Finset String) ≠ {"a.pdf"} := by decide

/-- C1, amended: provided (a) every submitted URL's network location is
bracket-free (otherwise the filename derivation `urlparse(pdf_url)` at line
110 or 216 itself raises the ValueError and the task is dropped before
producing anything), and (b) no stored or fetched PDF yields a link on which
the domain resolver raises — the mailto IndexError or the
unbalanced-bracket ValueError — all its extracted links likewise
bracket-free, the drained ResultMapping's key set equals the prior keys
together with the filenames derived from every submitted PDF URL; and
independent of those provisos, a task whose download fails (absent file plus
a non-200 or failed fetch) contributes exactly an entry with its derived
filename and the empty domain set.  (Hypothesis (a) is not consumed by the
model, whose filename derivation is total; it marks the boundary inside
which that totality is faithful to the program.) -/
theorem claim1_theorem (net : String → Option (Nat × PdfFile)) (folder : String)
    (eph : Bool) (urls : List String) (fs : Fs) (m : ResultMapping)
    (hnet : goodNet net) (hfs : goodFs fs)
    (_hclean : ∀ u ∈ urls, cleanLink u = true) :
    (runTasks net folder eph urls fs m).1.keys =
      m.keys ∪ (urls.map download_filename).toFinset ∧
    ∀ (fs2 : Fs) (u : String),
      fs2 (targetPath folder u) = none →
      (match net u with
       | some (s, _) => s ≠ 200
       | none => True) →
      handle_pdf_link net fs2 u folder eph = (some (failure_filename u, ∅), fs2) := by
  exact ⟨runTasks_keys net folder eph urls fs m hnet hfs,
    fun fs2 u habs hfail => handle_fail net fs2 u folder eph habs hfail⟩

/-- C1, witness: one failing download still produces its key. -/
theorem claim1_witness :
    (runTasks (fun _ => none) "dl" false ["http://h/a.pdf"] fsEmpty emptyMapping).1.keys =
      emptyMapping.keys ∪ (["http://h/a.pdf"].map download_filename).toFinset :=
  (claim1_theorem (fun _ => none) "dl" false ["http://h/a.pdf"] fsEmpty emptyMapping
    (fun u s pdf h => by cases h) (fun p pdf h => by cases h) (by decide)).1

/-! ## C10 — empty final path segment and the temp.pdf placeholder -/

lemma handle_key_eq (net : String → Option (Nat × PdfFile)) (fs : Fs) (u folder : String)
    (eph : Bool) :
    (handle_pdf_link net fs u folder eph).1 = none ∨
    ∃ d, (handle_pdf_link net fs u folder eph).1 = some (download_filename u, d) := by
  cases hex : fs (targetPath folder u) with
  | some pdf =>
    cases hp : parse_domains_from_links (extract_links_from_pdf pdf) with
    | none => exact Or.inl (by rw [handle_fst, hex]; simp [taskOutcome, hp])
    | some d =>
      exact Or.inr ⟨d, by rw [handle_fst, hex]; simp [taskOutcome, hp, basename_target]⟩
  | none =>
    cases hn : net u with
    | none =>
      exact Or.inr ⟨∅, by
        rw [handle_fst, hex]
        simp [taskOutcome, hn, failure_eq_download]⟩
    | some sb =>
      obtain ⟨s, body⟩ := sb
      by_cases h200 : s = 200
      · subst h200
        cases hp : parse_domains_from_links (extract_links_from_pdf body) with
        | none => exact Or.inl (by rw [handle_fst, hex]; simp [taskOutcome, hn, hp])
        | some d =>
          exact Or.inr ⟨d, by
            rw [handle_fst, hex]
            simp [taskOutcome, hn, hp, basename_target]⟩
      · exact Or.inr ⟨∅, by
          rw [handle_fst, hex]
          simp [taskOutcome, hn, h200, failure_eq_download]⟩

lemma runTasks_keys_subset (net : String → Option (Nat × PdfFile)) (folder : String)
    (eph : Bool) (urls : List String) (fs : Fs) (m : ResultMapping)
    (hall : ∀ u ∈ urls, pyBasename (pyUrlparse u).path = "") :
    (runTasks net folder eph urls fs m).1.keys ⊆ m.keys ∪ {"temp.pdf"} := by
  induction urls generalizing fs m with
  | nil =>
    rw [runTasks]
    exact Finset.subset_union_left
  | cons u rest ih =>
    rw [runTasks_cons]
    have hu : download_filename u = "temp.pdf" := dfn_temp u (hall u (by simp))
    have hrest : ∀ v ∈ rest, pyBasename (pyUrlparse v).path = "" :=
      fun v hv => hall v (by simp [hv])
    rcases handle_key_eq net fs u folder eph with hk | ⟨d, hk⟩
    · rw [hk]
      exact ih _ _ hrest
    · rw [hk]
      refine (ih _ _ hrest).trans ?_
      intro x hx
      rcases Finset.mem_union.1 hx with hx | hx
      · rw [show mergeOpt m (some (download_filename u, d)) =
            mergeResult m (download_filename u, d) from rfl] at hx
        simp only [mergeResult, hu, Finset.mem_insert] at hx
        rcases hx with rfl | hx
        · exact Finset.mem_union_right _ (Finset.mem_singleton_self _)
        · exact Finset.mem_union_left _ hx
      · exact Finset.mem_union_right _ hx

/-- C10: a URL whose path has an empty final segment makes both the fetcher
(line 110) and the download-failure path (line 216) derive the placeholder
temp.pdf; in a run all of whose submitted URLs are such, every task targets
the same single file path and the drained mapping has at most the single key
temp.pdf, into which all domain sets are merged. -/
theorem claim10_theorem (net : String → Option (Nat × PdfFile)) (folder : String)
    (eph : Bool) (urls : List String) (fs : Fs) (m : ResultMapping) (url : String)
    (h : pyBasename (pyUrlparse url).path = "")
    (hall : ∀ u ∈ urls, pyBasename (pyUrlparse u).path = "") :
    download_filename url = "temp.pdf" ∧ failure_filename url = "temp.pdf" ∧
    (runTasks net folder eph urls fs m).1.keys ⊆ m.keys ∪ {"temp.pdf"} ∧
    ∀ u1 ∈ urls, ∀ u2 ∈ urls, targetPath folder u1 = targetPath folder u2 := by
  refine ⟨dfn_temp url h, ?_, runTasks_keys_subset net folder eph urls fs m hall, ?_⟩
  · rw [failure_eq_download]
    exact dfn_temp url h
  · intro u1 h1 u2 h2
    rw [targetPath, targetPath, dfn_temp u1 (hall u1 h1), dfn_temp u2 (hall u2 h2)]

/-- C10, witness. -/
theorem claim10_witness :
    (runTasks (fun _ => none) "dl" false ["http://a.com/", "http://b.com/x/"] fsEmpty
      emptyMapping).1.keys ⊆ emptyMapping.keys ∪ {"temp.pdf"} :=
  (claim10_theorem (fun _ => none) "dl" false ["http://a.com/", "http://b.com/x/"] fsEmpty
    emptyMapping "http://c.com/docs/" (by decide) (by decide)).2.2.1

/-! ## C6 — download dedup by existing filename -/

lemma download_preserve (net : String → Option (Nat × PdfFile)) (fs : Fs) (u folder q : String)
    (h : (fs q).isSome = true) :
    ((download_pdf net fs u folder).2.1 q).isSome = true := by
  cases hex : fs (targetPath folder u) with
  | some pdf =>
    rw [download_hit net fs u folder pdf hex]
    exact h
  | none =>
    cases hn : net u with
    | none =>
      rw [download_fail net fs u folder hex (by rw [hn]; trivial)]
      exact h
    | some sb =>
      obtain ⟨s, body⟩ := sb
      by_cases h200 : s = 200
      · subst h200
        rw [download_write net fs u folder body hex hn]
        by_cases hq : q = targetPath folder u
        · simp [fsSet, hq]
        · simpa [fsSet, hq] using h
      · rw [download_fail net fs u folder hex (by rw [hn]; exact h200)]
        exact h

lemma download_wrote_present (net : String → Option (Nat × PdfFile)) (fs : Fs)
    (u folder : String) (habs : fs (targetPath folder u) = none)
    (hres : (download_pdf net fs u folder).1.isSome = true) :
    ((download_pdf net fs u folder).2.1 (targetPath folder u)).isSome = true := by
  cases hn : net u with
  | none =>
    rw [download_fail net fs u folder habs (by rw [hn]; trivial)] at hres
    simp at hres
  | some sb =>
    obtain ⟨s, body⟩ := sb
    by_cases h200 : s = 200
    · subst h200
      rw [download_write net fs u folder body habs hn]
      simp [fsSet]
    · rw [download_fail net fs u folder habs (by rw [hn]; exact h200)] at hres
      simp at hres

lemma runDownloads_cons (net : String → Option (Nat × PdfFile)) (folder u : String)
    (rest : List String) (fs : Fs) :
    runDownloads net folder (u :: rest) fs =
      (⟨u, pyJoin folder (download_filename u), (download_pdf net fs u folder).2.2,
          (fs (pyJoin folder (download_filename u))).isNone &&
            (download_pdf net fs u folder).1.isSome⟩ ::
        (runDownloads net folder rest (download_pdf net fs u folder).2.1).1,
       (runDownloads net folder rest (download_pdf net fs u folder).2.1).2) := by
  simp only [runDownloads]

lemma runDownloads_no_write (net : String → Option (Nat × PdfFile)) (folder : String)
    (urls : List String) (fs : Fs) (p : String) (hp : (fs p).isSome = true) :
    ((runDownloads net folder urls fs).1.filter
      (fun e => (e.path == p) && e.wrote)).length = 0 := by
  induction urls generalizing fs with
  | nil => rfl
  | cons u rest ih =>
    have hpres : ((download_pdf net fs u folder).2.1 p).isSome = true :=
      download_preserve net fs u folder p hp
    rw [runDownloads_cons, List.filter_cons]
    revert hpres
    generalize download_pdf net fs u folder = r
    generalize pyJoin folder (download_filename u) = w
    intro hpres
    have hcond : ¬(((w == p) && ((fs w).isNone && r.1.isSome)) = true) := by
      intro hcond
      simp only [Bool.and_eq_true, beq_iff_eq, Option.isNone_iff_eq_none] at hcond
      obtain ⟨hwp, habs, _⟩ := hcond
      rw [hwp] at habs
      rw [habs] at hp
      cases hp
    rw [if_neg hcond]
    exact ih _ hpres

lemma runDownloads_write_once (net : String → Option (Nat × PdfFile)) (folder : String)
    (urls : List String) (fs : Fs) (p : String) :
    ((runDownloads net folder urls fs).1.filter
      (fun e => (e.path == p) && e.wrote)).length ≤ 1 := by
  induction urls generalizing fs with
  | nil => simp [runDownloads]
  | cons u rest ih =>
    have hwrote := download_wrote_present net fs u folder
    rw [targetPath] at hwrote
    rw [runDownloads_cons, List.filter_cons]
    revert hwrote
    generalize download_pdf net fs u folder = r
    generalize pyJoin folder (download_filename u) = w
    intro hwrote
    by_cases hc : ((w == p) && ((fs w).isNone && r.1.isSome)) = true
    · rw [if_pos hc, List.length_cons]
      simp only [Bool.and_eq_true, beq_iff_eq, Option.isNone_iff_eq_none] at hc
      obtain ⟨hpath, habs, hres⟩ := hc
      subst hpath
      rw [runDownloads_no_write net folder rest r.2.1 w (hwrote habs hres)]
    · rw [if_neg hc]
      exact ih _

/-- C6, counterexample: two sequential fetches, both for derived filename
a.pdf, where the first ends 404.  BOTH issue a network request, refuting "at
most one download is attempted per distinct target filename within a run"
(an unsuccessful attempt leaves no file, so the next task retries). -/
theorem claim6_counterexample :
    ((runDownloads netC6 "dl" ["http://x/a.pdf", "http://y/a.pdf"] fsEmpty).1.map
      (fun e => (e.path, e.issued))) = [("dl/a.pdf", true), ("dl/a.pdf", true)] ∧
    download_filename "http://x/a.pdf" = download_filename "http://y/a.pdf" := by decide

/-- C6, amended: if a file with the derived filename already exists, the
fetcher returns its path at once, issuing no network request and leaving the
directory untouched; consequently, in a run (modelled sequentially, without
intervening deletions) at most one fetch per distinct target path WRITES the
file — but a failed attempt leaves nothing behind, so several tasks sharing
a target filename may each issue a download until one succeeds. -/
theorem claim6_theorem (net : String → Option (Nat × PdfFile)) (folder : String) :
    (∀ (fs : Fs) (url : String) (pdf : PdfFile),
      fs (targetPath folder url) = some pdf →
      download_pdf net fs url folder = (some (targetPath folder url), fs, false)) ∧
    ∀ (urls : List String) (fs : Fs) (p : String),
      ((runDownloads net folder urls fs).1.filter
        (fun e => (e.path == p) && e.wrote)).length ≤ 1 := by
  exact ⟨fun fs url pdf h => download_hit net fs url folder pdf h,
    fun urls fs p => runDownloads_write_once net folder urls fs p⟩

/-- C6, witness: the short-circuit on an already-present file. -/
theorem claim6_witness :
    download_pdf (fun _ => none) fsPre "http://x/a.pdf" "dl" =
      (some (targetPath "dl" "http://x/a.pdf"), fsPre, false) :=
  (claim6_theorem (fun _ => none) "dl").1 fsPre "http://x/a.pdf" pdfOne (by decide)

/-! ## C9 — order independence of the drained mapping -/

lemma foldl_mergeOpt_congr (g g2 : String → Option (String × Finset String)) (l : List String)
    (m : ResultMapping) (h : ∀ v ∈ l, g v = g2 v) :
    l.foldl (fun acc v => mergeOpt acc (g v)) m =
      l.foldl (fun acc v => mergeOpt acc (g2 v)) m := by
  induction l generalizing m with
  | nil => rfl
  | cons c cs ih =>
    rw [List.foldl_cons, List.foldl_cons, h c (by simp)]
    exact ih _ (fun v hv => h v (by simp [hv]))

lemma foldl_mergeOpt_map (g : String → Option (String × Finset String)) (l : List String)
    (m : ResultMapping) :
    l.foldl (fun acc v => mergeOpt acc (g v)) m = (l.map g).foldl mergeOpt m := by
  induction l generalizing m with
  | nil => rfl
  | cons c cs ih => rw [List.foldl_cons, List.map_cons, List.foldl_cons, ih]

lemma runTasks_fst_fold (net : String → Option (Nat × PdfFile)) (folder : String) (eph : Bool)
    (urls : List String) (fs : Fs) (m : ResultMapping)
    (hd : urls.Pairwise (fun a b => targetPath folder a ≠ targetPath folder b)) :
    (runTasks net folder eph urls fs m).1 =
      urls.foldl (fun acc v =>
        mergeOpt acc (taskOutcome net folder v (fs (targetPath folder v)))) m := by
  revert hd
  induction urls generalizing fs m with
  | nil => intro _; rfl
  | cons u rest ih =>
    intro hd
    rw [List.pairwise_cons] at hd
    rw [runTasks_cons, List.foldl_cons, handle_fst, ih _ _ hd.2]
    exact foldl_mergeOpt_congr _ _ rest _ (fun v hv => by
      rw [handle_snd net fs u folder eph _ (fun e => hd.1 v hv e.symm)])

lemma mergeResult_comm (m : ResultMapping) (a b : String × Finset String) :
    mergeResult (mergeResult m a) b = mergeResult (mergeResult m b) a := by
  obtain ⟨ka, da⟩ := a
  obtain ⟨kb, db⟩ := b
  simp only [mergeResult]
  congr 1
  · exact Finset.Insert.comm _ _ _
  · funext k
    split_ifs <;> first | rfl | exact Finset.union_right_comm _ _ _

lemma mergeOpt_comm (m : ResultMapping) (a b : Option (String × Finset String)) :
    mergeOpt (mergeOpt m a) b = mergeOpt (mergeOpt m b) a := by
  cases a with
  | none => cases b <;> rfl
  | some x =>
    cases b with
    | none => rfl
    | some y => exact mergeResult_comm m x y

lemma foldl_mergeOpt_perm (l1 l2 : List (Option (String × Finset String)))
    (m : ResultMapping) (hp : l1.Perm l2) : l1.foldl mergeOpt m = l2.foldl mergeOpt m :=
  hp.foldl_eq' (fun x _ y _ z => mergeOpt_comm z x y) m

/-- C9, counterexample: two submitted URLs with the same derived filename
a.pdf but different remote content.  Run in one completion order the key
a.pdf maps to one.com (the second task reuses the first task's file); in the
other order it maps to two.com — the mapping content depends on the
interleaving, refuting the claim. -/
theorem claim9_counterexample :
    (runTasks netC9 "dl" false ["http://x/a.pdf", "http://y/a.pdf"] fsEmpty
      emptyMapping).1.val "a.pdf" = {"one.com"} ∧
    (runTasks netC9 "dl" false ["http://y/a.pdf", "http://x/a.pdf"] fsEmpty
      emptyMapping).1.val "a.pdf" = {"two.com"} ∧
    ({"one.com"} : Finset String) ≠ {"two.com"} := by decide

/-- C9, amended: provided no two distinct submitted URLs share a target path
(derived filenames are pairwise distinct), the drained ResultMapping is the
same under every completion order — any permutation of the task list yields
an identical mapping, because each task then depends only on its own slice of
the directory and the merge is commutative; in particular worker counts 1 and
100 agree. -/
theorem claim9_theorem (net : String → Option (Nat × PdfFile)) (folder : String) (eph : Bool)
    (l1 l2 : List String) (fs : Fs) (m : ResultMapping)
    (hperm : l1.Perm l2)
    (hd : l1.Pairwise (fun a b => targetPath folder a ≠ targetPath folder b)) :
    (runTasks net folder eph l1 fs m).1 = (runTasks net folder eph l2 fs m).1 := by
  have hd2 : l2.Pairwise (fun a b => targetPath folder a ≠ targetPath folder b) :=
    (hperm.pairwise_iff (fun h => h.symm)).1 hd
  rw [runTasks_fst_fold net folder eph l1 fs m hd,
    runTasks_fst_fold net folder eph l2 fs m hd2,
    foldl_mergeOpt_map, foldl_mergeOpt_map]
  exact foldl_mergeOpt_perm _ _ m (hperm.map _)

/-- C9, witness: two tasks with distinct filenames, both orders. -/
theorem claim9_witness :
    (runTasks (fun _ => none) "dl" false ["http://x/a.pdf", "http://x/b.pdf"] fsEmpty
      emptyMapping).1 =
    (runTasks (fun _ => none) "dl" false ["http://x/b.pdf", "http://x/a.pdf"] fsEmpty
      emptyMapping).1 :=
  claim9_theorem (fun _ => none) "dl" false _ _ fsEmpty emptyMapping
    (List.Perm.swap "http://x/b.pdf" "http://x/a.pdf" []) (by decide)

end SubPDF
